import Mathlib

/-!
Verification of the react-store state container (store.ts / index.ts).

The development embeds the store core shallowly:

* `Val`/`Code` model dynamic JS values as far as the store's control flow
  inspects them: a value is either callable (a `fn` carrying a code term)
  or not, mirroring the `setter instanceof Function` dispatch in `set` and
  `get`.
* `Store` carries the current state together with the listener registry.
  The registry is the insertion-ordered element list of the JS `Set`
  named `subscriptions`; `Set.add` and `Set.delete` are embedded by
  `addListener` and `List.erase`.
* `Store.set` returns, besides the updated store, the list of listener
  notifications it issues (listener id paired with the argument passed to
  it), in the order `subscriptions.forEach` fires them, and the value the
  call returns.  The state field is committed before the events are
  emitted, mirroring the statement order of the source.
* `Store.setE`/`Store.getE` are the same code under an exception-aware
  semantics: the updater/selector may end in `Except.error`, in which case
  the assignment to `state` does not happen and `forEach` never runs.
* `useEqual` is the closure returned by the source's `useEqual`, with the
  `useRef` cell made explicit: the cell holds `Option U`, `none` standing
  for the initial `undefined` of `useRef<U>()`, and the step returns the
  new cell contents together with the value the closure returns (again an
  `Option U`, since `prev.current as U` can return `undefined`).
* `JSNum`/`JSVal`/`HObj`/`Heap` model the JS values `shallowEqual`
  inspects: primitives with `Object.is` identity (NaN equal to itself,
  `-0` distinct from `+0`), and heap references for objects, `Map`s and
  `Set`s, so that reference identity and one-level key/value identity are
  both expressible.
-/

/-- JS numbers as far as identity semantics distinguishes them:
`NaN`, negative zero, and the integers (`int 0` is `+0`). -/
inductive JSNum where
  | nan : JSNum
  | negZero : JSNum
  | int : Int → JSNum
deriving DecidableEq, Repr

/-- Dynamic JS values for the `shallowEqual` model: primitives plus
references into a heap of objects. -/
inductive JSVal where
  | undefV : JSVal
  | null : JSVal
  | bool : Bool → JSVal
  | num : JSNum → JSVal
  | str : String → JSVal
  | ref : Nat → JSVal
deriving DecidableEq, Repr

/-- Heap objects: plain objects (own enumerable string keys in insertion
order), `Map`s (entries in insertion order) and `Set`s (elements in
insertion order). -/
inductive HObj where
  | obj : List (String × JSVal) → HObj
  | map : List (JSVal × JSVal) → HObj
  | set : List JSVal → HObj
deriving DecidableEq, Repr

/-- A heap: object number `r` is the target of `JSVal.ref r`. -/
abbrev Heap := List HObj

/-- `Object.is` on numbers: `NaN` is identical to itself, `-0` is not
identical to `+0`. -/
def numIs : JSNum → JSNum → Bool
  | .nan, .nan => true
  | .negZero, .negZero => true
  | .int m, .int n => m == n
  | _, _ => false

/-- `Object.is`. -/
def objectIs : JSVal → JSVal → Bool
  | .undefV, .undefV => true
  | .null, .null => true
  | .bool a, .bool b => a == b
  | .num a, .num b => numIs a b
  | .str a, .str b => a == b
  | .ref a, .ref b => a == b
  | _, _ => false

/-- SameValueZero on numbers (the key equality of JS `Map`/`Set`):
like `Object.is` except `-0` and `+0` are the same key. -/
def numSVZ : JSNum → JSNum → Bool
  | .nan, .nan => true
  | .negZero, .negZero => true
  | .negZero, .int n => n == 0
  | .int n, .negZero => n == 0
  | .int m, .int n => m == n
  | _, _ => false

/-- SameValueZero, used by `Map.prototype.get` and `Set.prototype.has`. -/
def sameValueZero : JSVal → JSVal → Bool
  | .undefV, .undefV => true
  | .null, .null => true
  | .bool a, .bool b => a == b
  | .num a, .num b => numSVZ a b
  | .str a, .str b => a == b
  | .ref a, .ref b => a == b
  | _, _ => false

/-- `Map.prototype.get`: the value of the first entry whose key matches
under SameValueZero, `undefined` when no entry matches. -/
def mapGet (entries : List (JSVal × JSVal)) (k : JSVal) : JSVal :=
  match entries.find? (fun kv => sameValueZero kv.1 k) with
  | some kv => kv.2
  | none => .undefV

/-- `Set.prototype.has` under SameValueZero. -/
def setHas (elems : List JSVal) (v : JSVal) : Bool :=
  elems.any (fun x => sameValueZero x v)

/-- `Object.keys`: own enumerable string keys.  `Map` and `Set` contents
are not own enumerable properties, so their key list is empty. -/
def jsKeys : HObj → List String
  | .obj fields => fields.map Prod.fst
  | .map _ => []
  | .set _ => []

/-- `Object.prototype.hasOwnProperty.call`. -/
def hasOwn (o : HObj) (k : String) : Bool :=
  match o with
  | .obj fields => fields.any (fun f => f.1 == k)
  | .map _ => false
  | .set _ => false

/-- Own-property read `a[k]`; `undefined` when absent. -/
def getProp (o : HObj) (k : String) : JSVal :=
  match o with
  | .obj fields =>
    match fields.find? (fun f => f.1 == k) with
    | some f => f.2
    | none => .undefV
  | .map _ => .undefV
  | .set _ => .undefV

/-- Body of `shallowEqual` once both arguments are known to be non-null
objects, dereferenced in the heap: the `instanceof Map`, `instanceof Set`
and plain-object paths of the source. -/
def shallowBody (oa ob : HObj) : Bool :=
  match oa, ob with
  | .map ea, .map eb =>
    ea.length == eb.length &&
    ea.all (fun kv => objectIs kv.2 (mapGet eb kv.1))
  | .set xa, .set xb =>
    xa.length == xb.length &&
    xa.all (fun v => setHas xb v)
  | _, _ =>
    (jsKeys oa).length == (jsKeys ob).length &&
    (jsKeys oa).all (fun k => hasOwn ob k && objectIs (getProp oa k) (getProp ob k))

/-- `shallowEqual` from index.ts: `Object.is` short-circuit, then the
`typeof a !== 'object' || a === null` guards (only heap references pass
them), then `shallowBody` on the dereferenced objects. -/
def shallowEqual (h : Heap) (a b : JSVal) : Bool :=
  if objectIs a b then true
  else
    match a, b with
    | .ref ra, .ref rb =>
      match h[ra]?, h[rb]? with
      | some oa, some ob => shallowBody oa ob
      | _, _ => false
    | _, _ => false

mutual
/-- Dynamic values for the store model: the store's control flow only asks
whether a value is callable, so a value is a primitive or a function given
by a code term. -/
inductive Val where
  | undefV : Val
  | num : Int → Val
  | fn : Code → Val

/-- Function bodies, enough to express the updaters and selectors the
claims use: constant functions and the identity. -/
inductive Code where
  | constC : Val → Code
  | identC : Code
end

/-- Function application. -/
def applyCode : Code → Val → Val
  | .constC v, _ => v
  | .identC, x => x

/-- `instanceof Function`. -/
def isCallable : Val → Bool
  | .fn _ => true
  | _ => false

/-- Calling a value, as in `get()()`: a TypeError (here `none`) unless the
value is callable. -/
def callVal : Val → Val → Option Val
  | .fn c, x => some (applyCode c x)
  | _, _ => none

/-- The store: the `state` variable and the `subscriptions` set, the
latter as its insertion-ordered element list (listeners named by ids). -/
structure Store (T : Type) where
  state : T
  subs : List Nat
deriving Repr

/-- `Set.prototype.add`: appends unless already present. -/
def addListener (subs : List Nat) (l : Nat) : List Nat :=
  if l ∈ subs then subs else subs ++ [l]

/-- `subscribe(listener)`: adds the listener to `subscriptions`. -/
def Store.subscribe {T : Type} (σ : Store T) (l : Nat) : Store T :=
  { σ with subs := addListener σ.subs l }

/-- The closure returned by `subscribe`: `subscriptions.delete(listener)`. -/
def Store.unsubscribe {T : Type} (σ : Store T) (l : Nat) : Store T :=
  { σ with subs := σ.subs.erase l }

/-- Result of a `set` call: the updated store, the notifications issued
(listener id, argument passed to it) in `forEach` order, and the value
the call returns. -/
structure SetResult (T : Type) where
  store : Store T
  events : List (Nat × T)
  ret : T
deriving Repr

/-- The tail of `set` once the new state is computed: commit the state
variable, then notify every listener registered at that moment with the
new state, then return the new state. -/
def Store.commit {T : Type} (σ : Store T) (newState : T) : SetResult T :=
  let σ₂ : Store T := { σ with state := newState }
  { store := σ₂
  , events := σ₂.subs.map (fun l => (l, newState))
  , ret := newState }

/-- `set` from the source: `state = setter instanceof Function ?
setter(state) : setter; subscriptions.forEach(listener =>
listener(state)); return state`. -/
def Store.set (σ : Store Val) (arg : Val) : SetResult Val :=
  match arg with
  | .fn c => Store.commit σ (applyCode c σ.state)
  | v => Store.commit σ v

/-- `get` from the source: `selector instanceof Function ?
selector(state) : state`.  `get()` is `Store.get σ .undefV` (the missing
parameter is `undefined`). -/
def Store.get (σ : Store Val) (arg : Val) : Val :=
  match arg with
  | .fn c => applyCode c σ.state
  | _ => σ.state

/-- Result of a `set` call under the exception-aware semantics. -/
structure SetResultE (T E : Type) where
  store : Store T
  events : List (Nat × T)
  ret : Except E T
deriving Repr

/-- `set` with an updater that may throw: if `setter(state)` throws, the
assignment to `state` never happens, `forEach` never runs, and the
exception propagates unmodified to the caller. -/
def Store.setE {T E : Type} (σ : Store T) (f : T → Except E T) : SetResultE T E :=
  match f σ.state with
  | .error e => { store := σ, events := [], ret := .error e }
  | .ok v =>
    let r := Store.commit σ v
    { store := r.store, events := r.events, ret := .ok r.ret }

/-- `get` with a selector that may throw: `selector(state)` is returned
or its exception propagates unmodified. -/
def Store.getE {T E R : Type} (σ : Store T) (f : T → Except E R) : Except E R :=
  f σ.state

/-- One invocation of the closure returned by `useEqual`, with the
`useRef` cell explicit.  The cell holds `none` while `prev.current` is
still `undefined`.  Returns the new cell contents and the value the
closure returns: on the equal branch that value is `prev.current` itself
(possibly `undefined`), on the other branch the freshly stored `next`. -/
def useEqual {S U : Type} (selector : S → U) (equals : Option U → U → Bool)
    (cell : Option U) (state : S) : Option U × Option U :=
  let next := selector state
  if equals cell next then (cell, cell)
  else (some next, some next)

/-- Iterated invocations of the gated selector over a sequence of states:
returns the final cell contents and the list of returned values. -/
def gateRun {S U : Type} (selector : S → U) (equals : Option U → U → Bool)
    (cell : Option U) : List S → Option U × List (Option U)
  | [] => (cell, [])
  | s :: rest =>
    let r := useEqual selector equals cell s
    let rr := gateRun selector equals r.1 rest
    (rr.1, r.2 :: rr.2)

/-- `set` as written in index.ts: identical to `Store.set` except that
`subscriptions.forEach(listener => listener())` invokes each listener with
no argument, so the listener's parameter is bound to `undefined`. -/
def Store.setIndex (σ : Store Val) (arg : Val) : SetResult Val :=
  match arg with
  | .fn c => { store := { σ with state := applyCode c σ.state }
             , events := σ.subs.map (fun l => (l, Val.undefV))
             , ret := applyCode c σ.state }
  | v => { store := { σ with state := v }
         , events := σ.subs.map (fun l => (l, Val.undefV))
         , ret := v }

/-- Heap with `\x7ba:1,b:2\x7d` at reference 0 and a second, distinct
`\x7ba:1,b:2\x7d` at reference 1. -/
def heapPair : Heap :=
  [.obj [("a", .num (.int 1)), ("b", .num (.int 2))],
   .obj [("a", .num (.int 1)), ("b", .num (.int 2))]]

/-- Heap with `\x7ba:1,b:\x7bc:1\x7d\x7d` at references 0 and 1, the two
`b` fields pointing at structurally equal but distinct objects 2 and 3. -/
def heapNested : Heap :=
  [.obj [("a", .num (.int 1)), ("b", .ref 2)],
   .obj [("a", .num (.int 1)), ("b", .ref 3)],
   .obj [("c", .num (.int 1))],
   .obj [("c", .num (.int 1))]]

/-- Heap with two distinct one-entry `Map`s sending "x" to 1. -/
def heapMaps : Heap :=
  [.map [(.str "x", .num (.int 1))],
   .map [(.str "x", .num (.int 1))]]

/-- Heap with two distinct objects whose `k` field is `NaN`. -/
def heapNaN : Heap := [.obj [("k", .num .nan)], .obj [("k", .num .nan)]]

/-- Heap with one object whose `k` field is `+0` and one whose `k` field
is `-0`. -/
def heapZeros : Heap := [.obj [("k", .num (.int 0))], .obj [("k", .num .negZero)]]

/-- Helper: mapping a nodup listener list to notification events and
filtering for one registered listener yields exactly one event. -/
theorem commit_filter_length {T : Type} (subs : List Nat) (ns : T) (l : Nat)
    (hnd : subs.Nodup) (hl : l ∈ subs) :
    ((subs.map (fun x => (x, ns))).filter (fun e => e.1 == l)).length = 1 := by
  induction subs with
  | nil => simp at hl
  | cons a t ih =>
    by_cases h : a = l
    · subst h
      have hat : a ∉ t := (List.nodup_cons.mp hnd).1
      have : (t.map (fun x => (x, ns))).filter (fun e => e.1 == a) = [] := by
        apply List.filter_eq_nil_iff.mpr
        intro e he
        rcases List.mem_map.mp he with ⟨x, hx, rfl⟩
        simp only [beq_iff_eq]
        intro hxa
        exact hat (by simpa [hxa] using hx)
      simp [List.filter, this]
    · have hlt : l ∈ t := by
        rcases List.mem_cons.mp hl with h1 | h1
        · exact absurd h1.symm h
        · exact h1
      have := ih (List.nodup_cons.mp hnd).2 hlt
      simp only [List.map_cons, List.filter]
      rw [show ((a, ns).1 == l) = false from by simpa using h]
      exact this

/-- Helper: `Set.prototype.add` preserves distinctness of the registry. -/
theorem addListener_nodup (subs : List Nat) (l : Nat) (hnd : subs.Nodup) :
    (addListener subs l).Nodup := by
  unfold addListener
  by_cases h : l ∈ subs
  · simpa [h]
  · simp only [h, if_false]
    exact List.Nodup.append hnd (List.nodup_singleton l) (by simpa using h)

/-- Helper: after adding a listener to a nodup registry it occurs exactly
once. -/
theorem addListener_count (subs : List Nat) (l : Nat) (hnd : subs.Nodup) :
    (addListener subs l).count l = 1 := by
  unfold addListener
  by_cases h : l ∈ subs
  · simpa [h] using List.count_eq_one_of_mem hnd h
  · simp only [h, if_false]
    rw [List.count_append]
    simp [List.count_eq_zero.mpr h]

/-- Helper: adding the same listener twice is the same as adding it once. -/
theorem addListener_idem (subs : List Nat) (l : Nat) :
    addListener (addListener subs l) l = addListener subs l := by
  unfold addListener
  by_cases h : l ∈ subs <;> simp [h]

/-- Helper: an added listener is in the registry. -/
theorem mem_addListener (subs : List Nat) (l : Nat) : l ∈ addListener subs l := by
  unfold addListener
  by_cases h : l ∈ subs <;> simp [h]

/-- Helper: unsubscribing twice equals unsubscribing once on a nodup
registry. -/
theorem unsubscribe_twice {T : Type} (σ : Store T) (l : Nat) (hnd : σ.subs.Nodup) :
    Store.unsubscribe (Store.unsubscribe σ l) l = Store.unsubscribe σ l := by
  cases σ with
  | mk st subs =>
    simp [Store.unsubscribe, List.erase_of_not_mem hnd.not_mem_erase]

/-- Claim C1: for a non-callable argument `v`, `set(v)` replaces the state
unconditionally with `v`, then notifies every listener registered at the
moment notification begins with the new state, then returns the new state;
for a callable argument, the new state is the result of applying it to the
previous state and the same notification and return behaviour follows. -/
theorem set_replaces_then_notifies_then_returns (σ : Store Val) :
    (∀ v : Val, isCallable v = false →
      Store.set σ v =
        { store := { σ with state := v }
        , events := σ.subs.map (fun l => (l, v))
        , ret := v }) ∧
    (∀ c : Code, Store.set σ (.fn c) =
        { store := { σ with state := applyCode c σ.state }
        , events := σ.subs.map (fun l => (l, applyCode c σ.state))
        , ret := applyCode c σ.state }) := by
  constructor
  · intro v hv
    cases v with
    | undefV => rfl
    | num n => rfl
    | fn c => simp [isCallable] at hv
  · intro c
    rfl

/-- Witness for C1 at a concrete store and a concrete non-callable
argument. -/
theorem set_replaces_then_notifies_then_returns_witness :
    isCallable (Val.num 7) = false ∧
    Store.set { state := Val.num 0, subs := [4, 9] } (Val.num 7) =
      { store := { state := Val.num 7, subs := [4, 9] }
      , events := [(4, Val.num 7), (9, Val.num 7)]
      , ret := Val.num 7 } :=
  ⟨rfl, (set_replaces_then_notifies_then_returns
      { state := Val.num 0, subs := [4, 9] }).1 (Val.num 7) rfl⟩

/-- Counterexample to claim C2 as stated: in the index.ts variant of
`set` the registered listener is invoked with no argument, so its
parameter is `undefined` and not the new state `1`. -/
theorem set_listener_argument_counterexample :
    (0 : Nat) ∈ (({ state := Val.num 0, subs := [0] } : Store Val)).subs ∧
    (Store.setIndex { state := Val.num 0, subs := [0] } (Val.num 1)).store.state = Val.num 1 ∧
    (Store.setIndex { state := Val.num 0, subs := [0] } (Val.num 1)).events = [(0, Val.undefV)] ∧
    Val.undefV ≠ Val.num 1 :=
  ⟨by simp, rfl, rfl, fun h => Val.noConfusion h⟩

/-- Claim C2 (amended): a listener registered before a `set` call is
invoked exactly once per call and only after the state is committed, so
`get()` inside the listener body returns the new state; in the store.ts
and part_000 variants the listener receives the new state as its
argument, while in the index.ts variant it is invoked with no argument
and its parameter is bound to `undefined`. -/
theorem set_notifies_each_listener_once (σ : Store Val) (arg : Val) (l : Nat)
    (hnd : σ.subs.Nodup) (hl : l ∈ σ.subs) :
    ((Store.set σ arg).events.filter (fun e => e.1 == l)).length = 1 ∧
    (∀ e ∈ (Store.set σ arg).events, e.2 = Store.get (Store.set σ arg).store Val.undefV) ∧
    Store.get (Store.set σ arg).store Val.undefV = (Store.set σ arg).ret ∧
    ((Store.setIndex σ arg).events.filter (fun e => e.1 == l)).length = 1 ∧
    (∀ e ∈ (Store.setIndex σ arg).events, e.2 = Val.undefV) ∧
    Store.get (Store.setIndex σ arg).store Val.undefV = (Store.setIndex σ arg).ret := by
  refine ⟨?_, ?_, ?_, ?_, ?_, ?_⟩
  · cases arg <;> exact commit_filter_length σ.subs _ l hnd hl
  · cases arg <;>
      · intro e he
        rcases List.mem_map.mp he with ⟨x, _, rfl⟩
        rfl
  · cases arg <;> rfl
  · cases arg <;> exact commit_filter_length σ.subs _ l hnd hl
  · cases arg <;>
      · intro e he
        rcases List.mem_map.mp he with ⟨x, _, rfl⟩
        rfl
  · cases arg <;> rfl

/-- Witness for C2 at a concrete store, argument and listener. -/
theorem set_notifies_each_listener_once_witness :
    ([3, 5] : List Nat).Nodup ∧ (3 : Nat) ∈ ([3, 5] : List Nat) ∧
    ((Store.set { state := Val.num 0, subs := [3, 5] } (Val.num 1)).events.filter
       (fun e => e.1 == 3)).length = 1 :=
  ⟨by decide, by decide,
    (set_notifies_each_listener_once { state := Val.num 0, subs := [3, 5] }
      (Val.num 1) 3 (by decide) (by decide)).1⟩

/-- Claim C3: a callable argument to `set` is always interpreted as an
updater, never as a replacement value; after `set` of a thunk returning
the constant-42 function, calling the value returned by `get()` yields
42. -/
theorem set_callable_is_updater (σ : Store Val) :
    (∀ c : Code, (Store.set σ (.fn c)).store.state = applyCode c σ.state) ∧
    callVal
      (Store.get (Store.set σ (.fn (.constC (.fn (.constC (.num 42)))))).store Val.undefV)
      Val.undefV = some (Val.num 42) :=
  ⟨fun _ => rfl, rfl⟩

/-- Claim C4: `get()` returns the current state unchanged, `get` of a
callable selector returns the selector applied to the current state, and
`get` of a non-callable argument behaves as plain `get()`. -/
theorem get_returns_state_or_selection (σ : Store Val) :
    Store.get σ .undefV = σ.state ∧
    (∀ c : Code, Store.get σ (.fn c) = applyCode c σ.state) ∧
    (∀ v : Val, isCallable v = false → Store.get σ v = σ.state) := by
  refine ⟨rfl, fun _ => rfl, ?_⟩
  intro v hv
  cases v with
  | undefV => rfl
  | num n => rfl
  | fn c => simp [isCallable] at hv

/-- Witness for C4 at a concrete store and a concrete non-callable
argument. -/
theorem get_returns_state_or_selection_witness :
    isCallable (Val.num 5) = false ∧
    Store.get { state := Val.num 8, subs := [] } (Val.num 5) = Val.num 8 :=
  ⟨rfl, (get_returns_state_or_selection { state := Val.num 8, subs := [] }).2.2
    (Val.num 5) rfl⟩

/-- Claim C5: one invocation of the gated selector computes
`next = selector(state)`, evaluates `equals(prev, next)`, returns the
previously remembered value itself (cell untouched) when the comparator
declares them equal, and otherwise stores `next` as the new remembered
value and returns `next`. -/
theorem useEqual_gate_step {S U : Type} (selector : S → U)
    (equals : Option U → U → Bool) (cell : Option U) (st : S) :
    (equals cell (selector st) = true →
      useEqual selector equals cell st = (cell, cell)) ∧
    (equals cell (selector st) = false →
      useEqual selector equals cell st = (some (selector st), some (selector st))) := by
  constructor <;> intro h <;> simp [useEqual, h]

/-- Witness for C5: both comparator outcomes at concrete inputs. -/
theorem useEqual_gate_step_witness :
    ((fun (p : Option Nat) (n : Nat) => p == some n) (some 3) ((fun n => n + 1) 2) = true ∧
      useEqual (fun n => n + 1) (fun p n => p == some n) (some 3) 2 = (some 3, some 3)) ∧
    ((fun (p : Option Nat) (n : Nat) => p == some n) (some 9) ((fun n => n + 1) 2) = false ∧
      useEqual (fun n => n + 1) (fun p n => p == some n) (some 9) 2 = (some 3, some 3)) :=
  ⟨⟨by decide, (useEqual_gate_step (fun n => n + 1) (fun p n => p == some n)
      (some 3) 2).1 (by decide)⟩,
   ⟨by decide, (useEqual_gate_step (fun n => n + 1) (fun p n => p == some n)
      (some 9) 2).2 (by decide)⟩⟩

/-- Claim C6: with a comparator that returns true for every pair
(including the undefined previous value of the first comparison), every
invocation of the gated selector, starting from the fresh cell, returns
the same value as the first invocation (the cell's initial `undefined`),
however many state changes occur. -/
theorem useEqual_always_true_stable {S U : Type} (selector : S → U) (states : List S) :
    gateRun selector (fun _ _ => true) none states =
      (none, states.map (fun _ => (none : Option U))) := by
  induction states with
  | nil => rfl
  | cons s rest ih => simp [gateRun, useEqual, ih]

/-- Claim C7: the unsubscribe closure removes exactly its listener, after
which no `set` call notifies it; unsubscribing twice equals unsubscribing
once, and unsubscribing an absent listener changes neither the registry
nor the state and raises no error. -/
theorem unsubscribe_removes_listener (σ : Store Val) (l : Nat) (hnd : σ.subs.Nodup) :
    l ∉ (Store.unsubscribe σ l).subs ∧
    (∀ l₂, l₂ ≠ l → (l₂ ∈ (Store.unsubscribe σ l).subs ↔ l₂ ∈ σ.subs)) ∧
    (∀ arg : Val, ∀ e ∈ (Store.set (Store.unsubscribe σ l) arg).events, e.1 ≠ l) ∧
    (Store.unsubscribe σ l).state = σ.state ∧
    Store.unsubscribe (Store.unsubscribe σ l) l = Store.unsubscribe σ l ∧
    (l ∉ σ.subs → Store.unsubscribe σ l = σ) := by
  refine ⟨hnd.not_mem_erase, ?_, ?_, rfl, unsubscribe_twice σ l hnd, ?_⟩
  · intro l₂ h
    exact List.mem_erase_of_ne h
  · intro arg e he
    have hmem : e.1 ∈ σ.subs.erase l := by
      cases arg <;>
        · rcases List.mem_map.mp he with ⟨x, hx, rfl⟩
          exact hx
    intro hel
    rw [hel] at hmem
    exact hnd.not_mem_erase hmem
  · intro h
    cases σ with
    | mk st subs => simp [Store.unsubscribe, List.erase_of_not_mem h]

/-- Witness for C7 at a concrete registry. -/
theorem unsubscribe_removes_listener_witness :
    ([2, 6] : List Nat).Nodup ∧
    (2 : Nat) ∉ (Store.unsubscribe { state := Val.num 0, subs := [2, 6] } 2).subs :=
  ⟨by decide,
    (unsubscribe_removes_listener { state := Val.num 0, subs := [2, 6] } 2 (by decide)).1⟩

/-- Claim C8: `shallowEqual` is true on two distinct objects with
identity-equal values, false when a value is a distinct nested reference,
true on two `Map`s of equal size with identity-equal values per key, and
its value comparisons use `Object.is` identity (NaN-valued fields compare
equal, `+0` and `-0` fields compare different, unlike ordinary numeric
equality). -/
theorem shallowEqual_examples :
    shallowEqual heapPair (.ref 0) (.ref 1) = true ∧
    shallowEqual heapNested (.ref 0) (.ref 1) = false ∧
    shallowEqual heapMaps (.ref 0) (.ref 1) = true ∧
    shallowEqual heapNaN (.ref 0) (.ref 1) = true ∧
    shallowEqual heapZeros (.ref 0) (.ref 1) = false ∧
    objectIs (.num .nan) (.num .nan) = true ∧
    objectIs (.num (.int 0)) (.num .negZero) = false := by
  refine ⟨?_, ?_, ?_, ?_, ?_, rfl, rfl⟩ <;> decide

/-- Claim C9: an exception from an updater passed to `set`, or from a
selector passed to `get`, propagates synchronously and unmodified; when
the updater throws, the state is unchanged and no listener is notified. -/
theorem exceptions_propagate_unmodified {T E R : Type} (σ : Store T)
    (f : T → Except E T) (sel : T → Except E R) (e : E)
    (hf : f σ.state = .error e) :
    Store.setE σ f = { store := σ, events := [], ret := .error e } ∧
    Store.getE σ sel = sel σ.state ∧
    (sel σ.state = Except.error e → Store.getE σ sel = Except.error e) := by
  refine ⟨?_, rfl, fun h => h⟩
  unfold Store.setE
  rw [hf]

/-- Witness for C9 at a concrete store and throwing updater. -/
theorem exceptions_propagate_unmodified_witness :
    ((fun _ : Nat => (Except.error "boom" : Except String Nat)) 0 = Except.error "boom") ∧
    Store.setE { state := 0, subs := [1] } (fun _ : Nat => (Except.error "boom" : Except String Nat)) =
      { store := { state := 0, subs := [1] }, events := [], ret := Except.error "boom" } :=
  ⟨rfl, (exceptions_propagate_unmodified { state := 0, subs := [1] }
    (fun _ => Except.error "boom") (fun n => Except.ok n) "boom" rfl).1⟩

/-- Claim C10: every operation preserves the at-most-once registry
invariant; registering the identical listener twice leaves a single
entry, so per `set` call it is notified exactly once and a single
unsubscribe removes it entirely, and removal is idempotent. -/
theorem listener_registry_at_most_once (σ : Store Val) (l : Nat) (arg : Val)
    (hnd : σ.subs.Nodup) :
    (Store.subscribe σ l).subs.Nodup ∧
    (Store.unsubscribe σ l).subs.Nodup ∧
    (Store.set σ arg).store.subs = σ.subs ∧
    Store.subscribe (Store.subscribe σ l) l = Store.subscribe σ l ∧
    (Store.subscribe (Store.subscribe σ l) l).subs.count l = 1 ∧
    ((Store.set (Store.subscribe (Store.subscribe σ l) l) arg).events.filter
       (fun e => e.1 == l)).length = 1 ∧
    l ∉ (Store.unsubscribe (Store.subscribe (Store.subscribe σ l) l) l).subs ∧
    Store.unsubscribe (Store.unsubscribe σ l) l = Store.unsubscribe σ l := by
  have hnd1 : (addListener σ.subs l).Nodup := addListener_nodup σ.subs l hnd
  have hnd2 : (addListener (addListener σ.subs l) l).Nodup :=
    addListener_nodup _ l hnd1
  refine ⟨hnd1, hnd.erase l, ?_, ?_, ?_, ?_, ?_, unsubscribe_twice σ l hnd⟩
  · cases arg <;> rfl
  · cases σ with
    | mk st subs => simp [Store.subscribe, addListener_idem]
  · show (addListener (addListener σ.subs l) l).count l = 1
    rw [addListener_idem]
    exact addListener_count σ.subs l hnd
  · cases arg <;>
      exact commit_filter_length (addListener (addListener σ.subs l) l) _ l hnd2
        (mem_addListener _ l)
  · exact hnd2.not_mem_erase

/-- Witness for C10 at a concrete registry and listener. -/
theorem listener_registry_at_most_once_witness :
    ([1] : List Nat).Nodup ∧
    (Store.subscribe (Store.subscribe { state := Val.num 0, subs := [1] } 4) 4).subs.count 4 = 1 :=
  ⟨by decide,
    (listener_registry_at_most_once { state := Val.num 0, subs := [1] } 4 (Val.num 1)
      (by decide)).2.2.2.2.1⟩
